import Mathlib

/-!
Verification development for the crown-controller repository.

Strings from the Rust code are embedded as `List Char`; `HashMap` lookups
become functions into `Option`; file-system and clock interaction of the
configuration loader is made explicit as parameters (`elapsed`, the observed
modification time, and a `FileRead` outcome).  Machine integers are embedded
as `Nat` (unsigned bytes) and `Int` (the `i8`/`i16` values), with the
`u8 -> i8 -> i16` reinterpretation made explicit.
-/

namespace CrownController

/-! ## String helpers (semantics of the Rust std functions used) -/

/-- Splitting a character list at every occurrence of `sep`, keeping empty
pieces, as Rust's `str::split(sep)` does.  The result is never empty. -/
def split_char (sep : Char) : List Char → List (List Char)
| [] => [[]]
| c :: rest =>
  match split_char sep rest with
  | [] => [[]]
  | p :: ps => if c = sep then [] :: p :: ps else (c :: p) :: ps

/-- `app.rsplit("/").next()` in the source: the piece after the last `/`
(the whole identifier when it has no `/`). -/
def last_segment (l : List Char) : List Char :=
  (split_char '/' l).getLastD []

/-- Rust's `str::to_lowercase` restricted to the per-character mapping. -/
def lower (l : List Char) : List Char := l.map Char.toLower

/-! ## Data model (`src/config.rs`) -/

inductive RatchetMode
| Free
| Ratcheted
deriving DecidableEq, Repr

inductive Modifier
| None
| Shift
| Alt
| Ctrl
deriving DecidableEq, Repr

inductive Action
| Touch
| Release
| Left
| LeftPressed
| Right
| RightPressed
| Click
deriving DecidableEq, Repr

/-- `impl From<u8> for Modifier` in `src/config.rs`. -/
def modifier_from_u8 (v : Nat) : Modifier :=
  if v &&& 0x44 ≠ 0 then Modifier.Alt
  else if v &&& 0x22 ≠ 0 then Modifier.Shift
  else if v &&& 0x11 ≠ 0 then Modifier.Ctrl
  else Modifier.None

inductive Operation
| KeyPress (keysym : Nat) (modifiers : Nat)
| Execute (command : List Char)
deriving DecidableEq, Repr

structure ButtonMapping where
  mode : Option RatchetMode
  touch : List Operation
  release : List Operation
  click : List Operation
  left : List Operation
  right : List Operation
  left_pressed : List Operation
  right_pressed : List Operation

structure AppMapping where
  mode : RatchetMode
  mapping : Modifier → Option ButtonMapping

structure Config where
  app : List Char → Option AppMapping

/-- `deserialize_string_lowercase` in `src/config.rs`, parameterised by the
externally generated keysym table.  `none` stands for the serde error. -/
def deserialize_string_lowercase (keysyms : List Char → Option Nat) (s : List Char) :
    Option (Nat × Nat) :=
  match (split_char '+' (lower s)).reverse with
  | [] => none
  | key :: rest =>
    match keysyms key with
    | none => none
    | some keycode =>
      some (keycode, rest.foldl (fun acc modifier =>
        if modifier = "shift".toList then acc ||| 1
        else if modifier = "alt".toList then acc ||| 8
        else if modifier = "ctrl".toList then acc ||| 4
        else acc) 0)

/-- The `ConfigFile` state (`src/config.rs`); `last_mtime_check` is made
explicit as the `elapsed` argument of the operations and the modification
time is an abstract `Nat`. -/
structure ConfigFile where
  config : Option Config
  path : Option (List Char)
  mtime : Nat
  active_app : Option (List Char)
  global_conf : Option AppMapping
  active_conf : Option AppMapping

/-- Outcome of one attempt to read the backing file. -/
inductive FileRead
| openError
| parseError
| parsed (c : Config)

/-- `ConfigFile::update_app_config`. -/
def update_app_config (s : ConfigFile) : ConfigFile :=
  match s.config with
  | some conf =>
    match s.active_app with
    | some app =>
      let first := conf.app app
      let second := if first.isNone then conf.app (last_segment app) else first
      { s with active_conf := second }
    | none => s
  | none => s

/-- `ConfigFile::maybe_load_config`; `elapsed` is whether more than one second
passed since the last check, `mtime` the observed modification time and `r`
the outcome of opening and parsing the file. -/
def maybe_load_config (s : ConfigFile) (elapsed : Bool) (mtime : Nat) (r : FileRead) :
    ConfigFile :=
  match s.path with
  | none => s
  | some _ =>
    if elapsed then
      if mtime ≠ s.mtime then
        match r with
        | FileRead.parsed c =>
          update_app_config
            { s with global_conf := c.app ("global".toList), config := some c, mtime := mtime }
        | FileRead.parseError =>
          { s with config := none, global_conf := none, active_conf := none, mtime := mtime }
        | FileRead.openError => { s with mtime := mtime }
      else s
    else s

/-- `ConfigFile::select_app`. -/
def select_app (s : ConfigFile) (app : List Char) (elapsed : Bool) (mtime : Nat)
    (r : FileRead) : ConfigFile :=
  update_app_config (maybe_load_config { s with active_app := some app } elapsed mtime r)

/-- `ConfigFile::get_actions_from_mapping`. -/
def get_actions_from_mapping (mapping : ButtonMapping) (action : Action) :
    Option (List Operation) :=
  let actions := match action with
    | Action.Touch => mapping.touch
    | Action.Release => mapping.release
    | Action.Left => mapping.left
    | Action.LeftPressed => mapping.left_pressed
    | Action.Right => mapping.right
    | Action.RightPressed => mapping.right_pressed
    | Action.Click => mapping.click
  if actions.isEmpty then none else some actions

/-- `ConfigFile::get_actions_for_modifiers` (returns the updated state and
the looked-up list). -/
def get_actions_for_modifiers (s : ConfigFile) (modifiers : Modifier) (action : Action)
    (elapsed : Bool) (mtime : Nat) (r : FileRead) :
    ConfigFile × Option (List Operation) :=
  let s := maybe_load_config s elapsed mtime r
  (s, Option.orElse
    (s.active_conf.bind fun v => (v.mapping modifiers).bind fun v2 =>
      get_actions_from_mapping v2 action)
    (fun _ => s.global_conf.bind fun v => (v.mapping modifiers).bind fun v2 =>
      get_actions_from_mapping v2 action))

/-- `ConfigFile::ratchet_mode_for_modifier`. -/
def ratchet_mode_for_modifier (s : ConfigFile) (modifiers : Modifier)
    (elapsed : Bool) (mtime : Nat) (r : FileRead) : ConfigFile × RatchetMode :=
  let s := maybe_load_config s elapsed mtime r
  (s, (Option.orElse
    (s.active_conf.bind fun v => (v.mapping modifiers).bind fun v2 =>
      Option.orElse v2.mode (fun _ => some v.mode))
    (fun _ => s.global_conf.bind fun v => (v.mapping modifiers).bind fun v2 =>
      Option.orElse v2.mode (fun _ => some v.mode))).getD RatchetMode.Ratcheted)

/-! ## Crown event decoder (`src/hid.rs`) and router glue (`src/main.rs`) -/

inductive CrownCommands
| EnableRatchet
| DisableRatchet
deriving DecidableEq, Repr

inductive CrownEvent
| Connected
| Touch
| Leave
| Press
| Release
| Rotate (amount : Int) (pressed : Bool) (notch_amount : Int)
| KeyPress (modifiers : Nat)
| Unknown
deriving DecidableEq, Repr

/-- `StateChanges` (`src/main.rs`). -/
inductive StateChanges
| FocusChanged (pid : Nat) (program : List Char)
| ModifiersChanged (modifiers : Nat)
| CrownTouched (modifiers : Nat)
| CrownReleased (modifiers : Nat)
| CrownClicked (modifiers : Nat)
| CrownRotated (modifiers : Nat) (amount : Int) (notch_amount : Int) (pressed : Bool)
deriving DecidableEq, Repr

/-- The `v as i8 as i16` reinterpretation of a byte: value-preserving
widening of the signed 8-bit reading. -/
def u8_as_i8 (n : Nat) : Int :=
  if n % 256 < 128 then ((n % 256 : Nat) : Int) else ((n % 256 : Nat) : Int) - 256

/-- `decode_event` in `src/hid.rs`: the slice-pattern match, arm by arm and
in the same order.  `b i` is byte `i` of the frame (frames are byte lists). -/
def decode_event (d : List Nat) : CrownEvent :=
  let b := fun i => d.getD i 0
  if 11 ≤ d.length ∧ b 0 = 0x11 ∧ b 2 = 0x12 ∧ b 3 = 0 ∧ b 4 ≠ 0 then
    CrownEvent.Rotate (u8_as_i8 (b 5)) (b 10 ≠ 0) (u8_as_i8 (b 6))
  else if 11 ≤ d.length ∧ b 0 = 0x11 ∧ b 2 = 0x12 ∧ b 3 = 0 ∧ b 4 = 0 ∧ b 5 = 0 ∧ b 6 = 0
      ∧ b 10 = 0x01 then CrownEvent.Press
  else if 11 ≤ d.length ∧ b 0 = 0x11 ∧ b 2 = 0x12 ∧ b 3 = 0 ∧ b 4 = 0 ∧ b 5 = 0 ∧ b 6 = 0
      ∧ b 10 = 0x05 then CrownEvent.Release
  else if 9 ≤ d.length ∧ b 0 = 0x11 ∧ b 2 = 0x12 ∧ b 3 = 0 ∧ b 4 = 0 ∧ b 5 = 0 ∧ b 6 = 0
      ∧ b 8 = 0x01 then CrownEvent.Touch
  else if 9 ≤ d.length ∧ b 0 = 0x11 ∧ b 2 = 0x12 ∧ b 3 = 0 ∧ b 4 = 0 ∧ b 5 = 0 ∧ b 6 = 0
      ∧ b 8 = 0x03 then CrownEvent.Leave
  else if 4 ≤ d.length ∧ b 0 = 0x20 ∧ b 2 = 0x01 then CrownEvent.KeyPress (b 3)
  else if 2 ≤ d.length ∧ b 0 = 0x01 then CrownEvent.KeyPress (b 1)
  else if 3 ≤ d.length ∧ b 0 = 0x10 ∧ b 2 = 0x41 then CrownEvent.Connected
  else CrownEvent.Unknown

/-- The mutable state of `hid_listener`'s loop. -/
structure ListenerState where
  ratchet_enabled : Bool
  modifiers : Nat
  had_rotation : Bool
deriving DecidableEq, Repr

/-- The state at the top of `hid_listener`. -/
def hid_init : ListenerState :=
  { ratchet_enabled := true, modifiers := 0, had_rotation := false }

/-- The body of `hid_listener`'s per-event match (`src/hid.rs` lines
141-169): next state and the `StateChanges` messages sent. -/
def hid_listener_step (s : ListenerState) (e : CrownEvent) :
    ListenerState × List StateChanges :=
  match e with
  | CrownEvent.Connected => (s, [])
  | CrownEvent.KeyPress m => ({ s with modifiers := m }, [])
  | CrownEvent.Touch => (s, [StateChanges.CrownTouched s.modifiers])
  | CrownEvent.Leave => (s, [StateChanges.CrownReleased s.modifiers])
  | CrownEvent.Press => ({ s with had_rotation := false }, [])
  | CrownEvent.Release =>
    if s.had_rotation then (s, []) else (s, [StateChanges.CrownClicked s.modifiers])
  | CrownEvent.Rotate amount pressed notch_amount =>
    let s1 := if (!s.ratchet_enabled && amount != 0) || notch_amount != 0
      then { s with had_rotation := true } else s
    if amount != 0 && (notch_amount != 0 || !s.ratchet_enabled)
    then (s1, [StateChanges.CrownRotated s.modifiers amount notch_amount pressed])
    else (s1, [])
  | CrownEvent.Unknown => (s, [])

/-- Handling a `CrownCommands` delivered through the waker branch of the
listener loop. -/
def hid_command_step (s : ListenerState) (c : CrownCommands) : ListenerState :=
  match c with
  | CrownCommands.EnableRatchet => { s with ratchet_enabled := true }
  | CrownCommands.DisableRatchet => { s with ratchet_enabled := false }

/-- One unit of input to the listener loop: a command from the router or a
raw frame read from the device. -/
inductive HidInput
| command (c : CrownCommands)
| frame (data : List Nat)

def hid_input_step (s : ListenerState) (i : HidInput) : ListenerState × List StateChanges :=
  match i with
  | HidInput.command c => (hid_command_step s c, [])
  | HidInput.frame d => hid_listener_step s (decode_event d)

/-- The listener loop over a sequence of decoded events. -/
def hid_run_events (s : ListenerState) : List CrownEvent → ListenerState × List StateChanges
| [] => (s, [])
| e :: rest =>
  let p := hid_listener_step s e
  let q := hid_run_events p.1 rest
  (q.1, p.2 ++ q.2)

/-- The listener loop over a sequence of inputs (commands and frames). -/
def hid_run (s : ListenerState) : List HidInput → ListenerState × List StateChanges
| [] => (s, [])
| i :: rest =>
  let p := hid_input_step s i
  let q := hid_run p.1 rest
  (q.1, p.2 ++ q.2)

/-- The significance test of `src/hid.rs` line 161 (the condition that marks
`had_rotation`): ratchet mode Free with nonzero raw amount, or nonzero
detent-aligned notch amount. -/
def significant_rot (ratchet_enabled : Bool) (amount notch_amount : Int) : Bool :=
  (!ratchet_enabled && amount != 0) || notch_amount != 0

/-- The sub-kind derivation of the router's `CrownRotated` arm
(`src/main.rs` lines 89-95); `none` is the `continue` (no-op) branch. -/
def crown_rotated_action (amount : Int) (pressed : Bool) : Option Action :=
  if 0 < amount ∧ pressed then some Action.RightPressed
  else if amount < 0 ∧ pressed then some Action.LeftPressed
  else if 0 < amount then some Action.Right
  else if amount < 0 then some Action.Left
  else none

/-! ## Spec-side definitions, following the specification's words, used to
state the lookup-fallback and temporal claims. -/

/-- The seven per-gesture action lists of a `ButtonMapping`, keyed by
gesture kind. -/
def spec_gesture_list (bm : ButtonMapping) (a : Action) : List Operation :=
  match a with
  | Action.Touch => bm.touch
  | Action.Release => bm.release
  | Action.Left => bm.left
  | Action.LeftPressed => bm.left_pressed
  | Action.Right => bm.right
  | Action.RightPressed => bm.right_pressed
  | Action.Click => bm.click

/-- Spec wording: the view's entry for a modifier and gesture, where an
empty action list counts as no mapping. -/
def spec_entry_list (view : Option AppMapping) (m : Modifier) (a : Action) :
    Option (List Operation) :=
  match view with
  | none => none
  | some am =>
    match am.mapping m with
    | none => none
    | some bm => if spec_gesture_list bm a = [] then none else some (spec_gesture_list bm a)

/-- Spec wording for `actionsFor`: the active app's non-empty list, else the
global entry's non-empty list, else none. -/
def spec_actions_for (active global : Option AppMapping) (m : Modifier) (a : Action) :
    Option (List Operation) :=
  match spec_entry_list active m a with
  | some l => some l
  | none => spec_entry_list global m a

/-- Spec wording: a view's resolved ratchet mode for a modifier — the
matched `ButtonMapping`'s override when present, else its enclosing
`AppMapping`'s default. -/
def spec_ratchet_entry (view : Option AppMapping) (m : Modifier) : Option RatchetMode :=
  match view with
  | none => none
  | some am =>
    match am.mapping m with
    | none => none
    | some bm => some (bm.mode.getD am.mode)

/-- Spec wording for `ratchetModeFor`: active view first, then global,
finally `Ratcheted`. -/
def spec_ratchet_mode_for (active global : Option AppMapping) (m : Modifier) : RatchetMode :=
  match spec_ratchet_entry active m with
  | some md => md
  | none =>
    match spec_ratchet_entry global m with
    | some md => md
    | none => RatchetMode.Ratcheted

/-- Spec wording: whether a sequence of decoded events contains a rotation
that is significant at its processing point (the ratchet mode in force
when it is handled). -/
def spec_has_significant_rot (s : ListenerState) : List CrownEvent → Bool
| [] => false
| e :: rest =>
  let sig := match e with
    | CrownEvent.Rotate amount _ notch_amount =>
      significant_rot s.ratchet_enabled amount notch_amount
    | _ => false
  sig || spec_has_significant_rot (hid_listener_step s e).1 rest

/-- Number of `CrownClicked` messages in an output list. -/
def count_clicked : List StateChanges → Nat
| [] => 0
| StateChanges.CrownClicked _ :: rest => count_clicked rest + 1
| _ :: rest => count_clicked rest

/-- The modifier bit a single lowercase name contributes during key-name
parsing (`shift` = 1, `ctrl` = 4, `alt` = 8, anything else nothing). -/
def modifier_bit (m : List Char) : Nat :=
  if m = "shift".toList then 1
  else if m = "alt".toList then 8
  else if m = "ctrl".toList then 4
  else 0

/-- Bitwise OR of the modifier bits named by a list of pieces. -/
def or_bits (l : List (List Char)) : Nat :=
  l.foldr (fun m acc => modifier_bit m ||| acc) 0

/-- Joining pieces with `+`, the inverse of `split_char '+'` on
`+`-free pieces. -/
def intercalate_plus : List (List Char) → List Char
| [] => []
| [p] => p
| p :: q :: ps => p ++ '+' :: intercalate_plus (q :: ps)

/-! ## Concrete fixtures for counterexamples and witnesses -/

/-- App mapping `A` of the spec's app-matching example (no button entries,
default mode Free — only its identity matters). -/
def appA : AppMapping := { mode := RatchetMode.Free, mapping := fun _ => none }

/-- App mapping `G` of the spec's app-matching example. -/
def appG : AppMapping := { mode := RatchetMode.Ratcheted, mapping := fun _ => none }

/-- The spec example configuration with a full-path key. -/
def cfg1 : Config :=
  ⟨fun k =>
    if k = "/usr/bin/foo".toList then some appA
    else if k = "global".toList then some appG
    else none⟩

/-- The same configuration keyed by the basename instead. -/
def cfg2 : Config :=
  ⟨fun k =>
    if k = "foo".toList then some appA
    else if k = "global".toList then some appG
    else none⟩

/-- A resolver state that has `cfg1` loaded, `/usr/bin/foo` selected and all
three views live. -/
def s1 : ConfigFile :=
  { config := some cfg1
    path := some "config.yaml".toList
    mtime := 0
    active_app := some "/usr/bin/foo".toList
    global_conf := some appG
    active_conf := some appA }

/-- A one-entry keysym table mapping `a` to keysym 38. -/
def table0 : List Char → Option Nat :=
  fun k => if k = "a".toList then some 38 else none

/-! ## Helper lemmas -/

lemma gafm_eq (bm : ButtonMapping) (a : Action) :
    get_actions_from_mapping bm a
      = if spec_gesture_list bm a = [] then none else some (spec_gesture_list bm a) := by
  cases a <;>
    simp [get_actions_from_mapping, spec_gesture_list, List.isEmpty_iff]

lemma actions_entry_eq (view : Option AppMapping) (m : Modifier) (a : Action) :
    (view.bind fun v => (v.mapping m).bind fun v2 => get_actions_from_mapping v2 a)
      = spec_entry_list view m a := by
  cases view with
  | none => rfl
  | some am =>
    cases h : am.mapping m with
    | none => simp [spec_entry_list, h]
    | some bm => simp [spec_entry_list, h, gafm_eq]

lemma ratchet_entry_eq (view : Option AppMapping) (m : Modifier) :
    (view.bind fun v => (v.mapping m).bind fun v2 =>
        Option.orElse v2.mode (fun _ => some v.mode))
      = spec_ratchet_entry view m := by
  cases view with
  | none => rfl
  | some am =>
    cases h : am.mapping m with
    | none => simp [spec_ratchet_entry, h]
    | some bm =>
      cases hm : bm.mode <;>
        simp [spec_ratchet_entry, h, hm, Option.orElse, Option.getD]

/-! ## Claims -/

/-- Claim C8: the derived `Modifier` is a single value chosen by priority
Alt > Shift > Ctrl > None from the raw 8-bit bitmask; in particular the
first conjunct gives Alt for any bitmask with Alt-group bits set, whatever
the Shift-group bits. -/
theorem modifier_priority (v : Nat) (hv : v < 256) :
    (v &&& 0x44 ≠ 0 → modifier_from_u8 v = Modifier.Alt)
    ∧ (v &&& 0x44 = 0 → v &&& 0x22 ≠ 0 → modifier_from_u8 v = Modifier.Shift)
    ∧ (v &&& 0x44 = 0 → v &&& 0x22 = 0 → v &&& 0x11 ≠ 0 → modifier_from_u8 v = Modifier.Ctrl)
    ∧ (v &&& 0x44 = 0 → v &&& 0x22 = 0 → v &&& 0x11 = 0 → modifier_from_u8 v = Modifier.None) := by
  refine ⟨fun h1 => ?_, fun h1 h2 => ?_, fun h1 h2 h3 => ?_, fun h1 h2 h3 => ?_⟩
  · simp [modifier_from_u8, h1]
  · simp [modifier_from_u8, h1, h2]
  · simp [modifier_from_u8, h1, h2, h3]
  · simp [modifier_from_u8, h1, h2, h3]

/-- Witness for C8 at the bitmask 0x66, which has Alt-group, Shift-group and
Ctrl-group bits set and resolves to Alt. -/
theorem modifier_priority_witness :
    (0x66 : Nat) < 256 ∧ (0x66 : Nat) &&& 0x44 ≠ 0 ∧ (0x66 : Nat) &&& 0x22 ≠ 0
    ∧ modifier_from_u8 0x66 = Modifier.Alt :=
  ⟨by decide, by decide, by decide,
    (modifier_priority 0x66 (by decide)).1 (by decide)⟩

/-- Claim C9: every frame matching the rotation pattern with a nonzero delta
byte decodes to a `Rotate` whose amount is the delta byte reinterpreted as a
signed 8-bit integer, a value that the 16-bit widening preserves. -/
theorem rotate_amount_decode (d : List Nat) (hlen : 11 ≤ d.length)
    (h0 : d.getD 0 0 = 0x11) (h2 : d.getD 2 0 = 0x12) (h3 : d.getD 3 0 = 0)
    (h4 : d.getD 4 0 ≠ 0) (h5 : d.getD 5 0 ≠ 0) :
    decode_event d
      = CrownEvent.Rotate (u8_as_i8 (d.getD 5 0)) (d.getD 10 0 ≠ 0) (u8_as_i8 (d.getD 6 0))
    ∧ -128 ≤ u8_as_i8 (d.getD 5 0) ∧ u8_as_i8 (d.getD 5 0) ≤ 127 := by
  have hc : 11 ≤ d.length ∧ d.getD 0 0 = 0x11 ∧ d.getD 2 0 = 0x12 ∧ d.getD 3 0 = 0
      ∧ d.getD 4 0 ≠ 0 := ⟨hlen, h0, h2, h3, h4⟩
  refine ⟨?_, ?_, ?_⟩
  · simp only [decode_event]
    rw [if_pos hc]
  · unfold u8_as_i8; split <;> omega
  · unfold u8_as_i8; split <;> omega

/-- A concrete rotation frame: delta byte 0xFF, notch byte 2, pressed. -/
def frame9 : List Nat := [0x11, 0, 0x12, 0, 1, 0xFF, 2, 0, 0, 0, 1]

/-- Witness for C9: on `frame9` the decoded amount is `u8_as_i8 0xFF = -1`. -/
theorem rotate_amount_decode_witness :
    (decode_event frame9
      = CrownEvent.Rotate (u8_as_i8 (frame9.getD 5 0)) (frame9.getD 10 0 ≠ 0)
          (u8_as_i8 (frame9.getD 6 0))
      ∧ -128 ≤ u8_as_i8 (frame9.getD 5 0) ∧ u8_as_i8 (frame9.getD 5 0) ≤ 127)
    ∧ u8_as_i8 (frame9.getD 5 0) = -1 :=
  ⟨rotate_amount_decode frame9 (by decide) (by decide) (by decide) (by decide)
      (by decide) (by decide),
    by decide⟩

/-- Claim C6: `ratchetModeFor` returns the matched entry's override mode when
present, else its enclosing app mapping's default, checking the active view
before the global one, and `Ratcheted` when neither view has an entry — the
spec-side resolution `spec_ratchet_mode_for` applied to the post-reload
views. -/
theorem ratchet_mode_resolution (s : ConfigFile) (m : Modifier)
    (elapsed : Bool) (mtime : Nat) (r : FileRead) :
    (ratchet_mode_for_modifier s m elapsed mtime r).2
      = spec_ratchet_mode_for (maybe_load_config s elapsed mtime r).active_conf
          (maybe_load_config s elapsed mtime r).global_conf m := by
  simp only [ratchet_mode_for_modifier]
  rw [ratchet_entry_eq, ratchet_entry_eq]
  cases hA : spec_ratchet_entry (maybe_load_config s elapsed mtime r).active_conf m <;>
    cases hG : spec_ratchet_entry (maybe_load_config s elapsed mtime r).global_conf m <;>
      simp [spec_ratchet_mode_for, hA, hG, Option.orElse, Option.getD]

/-- Claim C7: `actionsFor` returns the active app's action list for the
modifier and gesture when non-empty, else the global entry's when non-empty,
else none — empty lists count as no mapping (`spec_actions_for` on the
post-reload views). -/
theorem actions_lookup_fallback (s : ConfigFile) (m : Modifier) (a : Action)
    (elapsed : Bool) (mtime : Nat) (r : FileRead) :
    (get_actions_for_modifiers s m a elapsed mtime r).2
      = spec_actions_for (maybe_load_config s elapsed mtime r).active_conf
          (maybe_load_config s elapsed mtime r).global_conf m a := by
  simp only [get_actions_for_modifiers]
  rw [actions_entry_eq, actions_entry_eq]
  cases hA : spec_entry_list (maybe_load_config s elapsed mtime r).active_conf m a <;>
    simp [spec_actions_for, hA, Option.orElse]

/-- Claim C1 counterexample: with configuration {"/usr/bin/foo": A,
"global": G}, selecting "/opt/other/foo" does not resolve to A — the
fallback looks the identifier's basename up as a configuration key, and
"foo" is not a key of this configuration. -/
theorem select_app_basename_cex :
    (select_app s1 ("/opt/other/foo".toList) false 0 FileRead.openError).active_conf = none
    ∧ ¬ (select_app s1 ("/opt/other/foo".toList) false 0
          FileRead.openError).active_conf = some appA :=
  ⟨rfl, fun h => Option.noConfusion (show (none : Option AppMapping) = some appA from h)⟩

/-- Claim C1 (amended): `selectApp` resolves the active view by exact
identifier match, else by looking the identifier's final path segment up as
a configuration key; so "/usr/bin/foo" resolves to A under the full-path
configuration, "/opt/other/foo" resolves to no app view there, and resolves
to A under the basename-keyed configuration. -/
theorem select_app_matching (s : ConfigFile) (conf : Config) (app : List Char)
    (mtime : Nat) (r : FileRead) (hc : s.config = some conf) :
    ((select_app s app false mtime r).active_conf
        = Option.orElse (conf.app app) (fun _ => conf.app (last_segment app)))
    ∧ (select_app s1 ("/usr/bin/foo".toList) false 0 FileRead.openError).active_conf
        = some appA
    ∧ (select_app s1 ("/opt/other/foo".toList) false 0 FileRead.openError).active_conf
        = none
    ∧ (select_app { s1 with config := some cfg2 } ("/opt/other/foo".toList) false 0
          FileRead.openError).active_conf = some appA := by
  refine ⟨?_, rfl, rfl, rfl⟩
  obtain ⟨cf, pth, mt, aa, g, ac⟩ := s
  simp only [ConfigFile.config] at hc
  subst hc
  cases pth <;>
    · simp only [select_app, maybe_load_config, update_app_config]
      cases ha : conf.app app <;> simp [ha, Option.orElse]

/-- Witness for C1's general matching rule on a fresh identifier. -/
theorem select_app_matching_witness :
    s1.config = some cfg1
    ∧ ((select_app s1 ("/x/bar".toList) false 0 FileRead.openError).active_conf
        = Option.orElse (cfg1.app ("/x/bar".toList))
            (fun _ => cfg1.app (last_segment ("/x/bar".toList)))) :=
  ⟨rfl, (select_app_matching s1 cfg1 ("/x/bar".toList) 0 FileRead.openError rfl).1⟩

/-- Claim C2 counterexample: a reload attempt that fails because the file
cannot be opened (modification time changed from 0 to 1, `openError`) keeps
the configuration and both views — nothing is cleared. -/
theorem reload_open_failure_cex :
    ¬ (maybe_load_config s1 true 1 FileRead.openError).config = none
    ∧ (maybe_load_config s1 true 1 FileRead.openError).config = some cfg1
    ∧ (maybe_load_config s1 true 1 FileRead.openError).global_conf = some appG
    ∧ (maybe_load_config s1 true 1 FileRead.openError).active_conf = some appA :=
  ⟨fun h => Option.noConfusion (show some cfg1 = (none : Option Config) from h),
    rfl, rfl, rfl⟩

/-- Claim C2 (amended): on a reload attempt (check elapsed, modification
time changed), a parse failure clears the configuration and the active and
global views, all three; a failure to open the file leaves all three
unchanged (it only logs); success replaces all views atomically from the
parsed configuration. -/
theorem reload_failure_behavior (s : ConfigFile) (p : List Char) (mtime : Nat)
    (hp : s.path = some p) (hm : mtime ≠ s.mtime) :
    ((maybe_load_config s true mtime FileRead.parseError).config = none
      ∧ (maybe_load_config s true mtime FileRead.parseError).global_conf = none
      ∧ (maybe_load_config s true mtime FileRead.parseError).active_conf = none)
    ∧ ((maybe_load_config s true mtime FileRead.openError).config = s.config
      ∧ (maybe_load_config s true mtime FileRead.openError).global_conf = s.global_conf
      ∧ (maybe_load_config s true mtime FileRead.openError).active_conf = s.active_conf)
    ∧ (∀ c : Config, (maybe_load_config s true mtime (FileRead.parsed c)).config = some c
      ∧ (maybe_load_config s true mtime (FileRead.parsed c)).global_conf
          = c.app ("global".toList)
      ∧ ∀ a : List Char, s.active_app = some a →
        (maybe_load_config s true mtime (FileRead.parsed c)).active_conf
          = Option.orElse (c.app a) (fun _ => c.app (last_segment a))) := by
  obtain ⟨cf, pth, mt, aa, g, ac⟩ := s
  simp only [ConfigFile.path] at hp
  simp only [ConfigFile.mtime] at hm
  subst hp
  refine ⟨⟨?_, ?_, ?_⟩, ⟨?_, ?_, ?_⟩, fun c => ⟨?_, ?_, fun a ha => ?_⟩⟩
  · simp [maybe_load_config, if_pos hm]
  · simp [maybe_load_config, if_pos hm]
  · simp [maybe_load_config, if_pos hm]
  · simp [maybe_load_config, if_pos hm]
  · simp [maybe_load_config, if_pos hm]
  · simp [maybe_load_config, if_pos hm]
  · cases aa <;> simp [maybe_load_config, update_app_config, if_pos hm]
  · cases aa <;> simp [maybe_load_config, update_app_config, if_pos hm]
  · have ha' : aa = some a := ha
    subst ha'
    cases hca : c.app a <;>
      simp [maybe_load_config, update_app_config, if_pos hm, hca, Option.orElse]

/-- Witness for C2 on the live state `s1`: a parse failure at changed
modification time clears all three. -/
theorem reload_failure_behavior_witness :
    s1.path = some ("config.yaml".toList) ∧ (1 : Nat) ≠ s1.mtime
    ∧ ((maybe_load_config s1 true 1 FileRead.parseError).config = none
      ∧ (maybe_load_config s1 true 1 FileRead.parseError).global_conf = none
      ∧ (maybe_load_config s1 true 1 FileRead.parseError).active_conf = none) :=
  ⟨rfl, by decide, (reload_failure_behavior s1 ("config.yaml".toList) 1 rfl (by decide)).1⟩

lemma rotate_step_eq (s : ListenerState) (amount notch_amount : Int) (pressed : Bool) :
    hid_listener_step s (CrownEvent.Rotate amount pressed notch_amount)
      = ({ s with had_rotation := s.had_rotation
              || significant_rot s.ratchet_enabled amount notch_amount },
         if significant_rot s.ratchet_enabled amount notch_amount && amount != 0
         then [StateChanges.CrownRotated s.modifiers amount notch_amount pressed]
         else []) := by
  obtain ⟨re, m, hr⟩ := s
  simp only [hid_listener_step, significant_rot]
  cases ha : (amount != 0) <;> cases hn : (notch_amount != 0) <;> cases re <;> cases hr <;>
    simp [ha, hn]

/-- Whether one decoded event is a rotation significant in state `s`. -/
def event_sig (s : ListenerState) (e : CrownEvent) : Bool :=
  match e with
  | CrownEvent.Rotate amount _ notch_amount =>
    significant_rot s.ratchet_enabled amount notch_amount
  | _ => false

lemma spec_has_significant_rot_cons (s : ListenerState) (e : CrownEvent)
    (rest : List CrownEvent) :
    spec_has_significant_rot s (e :: rest)
      = (event_sig s e || spec_has_significant_rot (hid_listener_step s e).1 rest) := rfl

/-- A rotation frame whose raw delta byte is zero while the pattern's
trigger byte and the notch byte are nonzero. -/
def frame3 : List Nat := [0x11, 0, 0x12, 0, 1, 0, 1, 0, 0, 0, 0]

/-- Claim C3 counterexample: the decoded Rotate with amount 0 and notch 1 is
significant (it marks `had_rotation`), yet no CrownRotated message is
forwarded — forwarding additionally requires a nonzero raw amount. -/
theorem rotate_forwarding_cex :
    decode_event frame3 = CrownEvent.Rotate 0 false 1
    ∧ significant_rot hid_init.ratchet_enabled 0 1 = true
    ∧ (hid_listener_step hid_init (CrownEvent.Rotate 0 false 1)).2 = []
    ∧ (hid_listener_step hid_init (CrownEvent.Rotate 0 false 1)).1.had_rotation = true := by
  refine ⟨by decide, by decide, by decide, by decide⟩

/-- Claim C3 (amended): a decoded Rotate is significant exactly when ratchet
mode is Free with nonzero raw amount or the notch amount is nonzero
(`significant_rot`, which is what drives `had_rotation`), and a CrownRotated
message is forwarded if and only if the event is significant and its raw
amount is also nonzero. -/
theorem rotate_forwarding (s : ListenerState) (amount notch_amount : Int) (pressed : Bool) :
    ((hid_listener_step s (CrownEvent.Rotate amount pressed notch_amount)).1.had_rotation
        = (s.had_rotation || significant_rot s.ratchet_enabled amount notch_amount))
    ∧ ((hid_listener_step s (CrownEvent.Rotate amount pressed notch_amount)).2
        = if significant_rot s.ratchet_enabled amount notch_amount && amount != 0
          then [StateChanges.CrownRotated s.modifiers amount notch_amount pressed]
          else []) := by
  rw [rotate_step_eq]
  exact ⟨rfl, rfl⟩

/-! Further helper lemmas for the listener-loop claims. -/

lemma step_rotated_nonzero (s : ListenerState) (e : CrownEvent) (m : Nat)
    (amount notch_amount : Int) (pressed : Bool)
    (h : StateChanges.CrownRotated m amount notch_amount pressed
        ∈ (hid_listener_step s e).2) :
    amount ≠ 0 := by
  cases e with
  | Rotate a p n =>
    simp only [hid_listener_step] at h
    split at h
    · simp only [List.mem_singleton] at h
      obtain ⟨-, h2, -, -⟩ := StateChanges.CrownRotated.inj h
      subst h2
      rename_i hcond
      have := (Bool.and_eq_true _ _).mp hcond
      simpa using this.1
    · simp at h
  | Release =>
    simp only [hid_listener_step] at h
    split at h <;> simp at h
  | Connected => simp [hid_listener_step] at h
  | Touch => simp [hid_listener_step] at h
  | Leave => simp [hid_listener_step] at h
  | Press => simp [hid_listener_step] at h
  | KeyPress mk => simp [hid_listener_step] at h
  | Unknown => simp [hid_listener_step] at h

lemma run_rotated_nonzero (s : ListenerState) (inputs : List HidInput) (m : Nat)
    (amount notch_amount : Int) (pressed : Bool)
    (h : StateChanges.CrownRotated m amount notch_amount pressed
        ∈ (hid_run s inputs).2) :
    amount ≠ 0 := by
  induction inputs generalizing s with
  | nil => simp [hid_run] at h
  | cons i rest ih =>
    simp only [hid_run] at h
    rw [List.mem_append] at h
    rcases h with h | h
    · cases i with
      | command c => simp [hid_input_step] at h
      | frame d => exact step_rotated_nonzero _ _ _ _ _ _ h
    · exact ih _ h

lemma crown_rotated_action_isSome (amount : Int) (pressed : Bool) (ha : amount ≠ 0) :
    crown_rotated_action amount pressed ≠ none := by
  intro hn
  unfold crown_rotated_action at hn
  split at hn
  · exact Option.noConfusion hn
  split at hn
  · exact Option.noConfusion hn
  split at hn
  · exact Option.noConfusion hn
  split at hn
  · exact Option.noConfusion hn
  rename_i h1 h2 h3 h4
  exact ha (by omega)

/-- Claim C10: every CrownRotated message the decoder loop sends carries a
nonzero amount, so the router's zero-amount no-op branch
(`crown_rotated_action _ _ = none`) is unreachable for decoder-produced
messages. -/
theorem crown_rotated_nonzero (s : ListenerState) (inputs : List HidInput) (m : Nat)
    (amount notch_amount : Int) (pressed : Bool)
    (h : StateChanges.CrownRotated m amount notch_amount pressed
        ∈ (hid_run s inputs).2) :
    amount ≠ 0 ∧ crown_rotated_action amount pressed ≠ none := by
  have ha := run_rotated_nonzero s inputs m amount notch_amount pressed h
  exact ⟨ha, crown_rotated_action_isSome amount pressed ha⟩

/-- A rotation frame with both the raw delta and the notch byte equal 1. -/
def frame10 : List Nat := [0x11, 0, 0x12, 0, 1, 1, 1, 0, 0, 0, 0]

/-- Witness for C10 on a concrete frame that is forwarded. -/
theorem crown_rotated_nonzero_witness :
    (StateChanges.CrownRotated 0 1 1 false
        ∈ (hid_run hid_init [HidInput.frame frame10]).2)
    ∧ ((1 : Int) ≠ 0 ∧ crown_rotated_action 1 false ≠ none) :=
  ⟨by decide,
    crown_rotated_nonzero hid_init [HidInput.frame frame10] 0 1 1 false (by decide)⟩

lemma run_events_append (s : ListenerState) (l1 l2 : List CrownEvent) :
    hid_run_events s (l1 ++ l2)
      = ((hid_run_events (hid_run_events s l1).1 l2).1,
         (hid_run_events s l1).2 ++ (hid_run_events (hid_run_events s l1).1 l2).2) := by
  induction l1 generalizing s with
  | nil => simp [hid_run_events]
  | cons e rest ih => simp [hid_run_events, ih, List.append_assoc]

lemma count_clicked_append (l1 l2 : List StateChanges) :
    count_clicked (l1 ++ l2) = count_clicked l1 + count_clicked l2 := by
  induction l1 with
  | nil => simp [count_clicked]
  | cons x rest ih => cases x <;> simp [count_clicked, ih] <;> omega

lemma step_no_click (s : ListenerState) (e : CrownEvent) (he : e ≠ CrownEvent.Release) :
    count_clicked (hid_listener_step s e).2 = 0 := by
  cases e <;> simp [hid_listener_step, count_clicked] at he ⊢
  case Rotate a p n => split <;> simp [count_clicked]

lemma run_no_click (s : ListenerState) (l : List CrownEvent)
    (hR : CrownEvent.Release ∉ l) :
    count_clicked (hid_run_events s l).2 = 0 := by
  induction l generalizing s with
  | nil => simp [hid_run_events, count_clicked]
  | cons e rest ih =>
    simp only [hid_run_events]
    rw [count_clicked_append]
    have he : e ≠ CrownEvent.Release := fun h => hR (h ▸ List.mem_cons_self e rest)
    rw [step_no_click s e he, ih _ (fun h => hR (List.mem_cons_of_mem _ h))]

lemma step_had_rotation (s : ListenerState) (e : CrownEvent)
    (he : e ≠ CrownEvent.Press) :
    (hid_listener_step s e).1.had_rotation = (s.had_rotation || event_sig s e) := by
  cases e with
  | Rotate a p n => rw [rotate_step_eq]; rfl
  | Press => exact absurd rfl he
  | Release =>
    simp only [hid_listener_step, event_sig]
    split <;> simp
  | Connected => simp [hid_listener_step, event_sig]
  | Touch => simp [hid_listener_step, event_sig]
  | Leave => simp [hid_listener_step, event_sig]
  | KeyPress m => simp [hid_listener_step, event_sig]
  | Unknown => simp [hid_listener_step, event_sig]

lemma run_had_rotation (s : ListenerState) (l : List CrownEvent)
    (hP : CrownEvent.Press ∉ l) :
    (hid_run_events s l).1.had_rotation
      = (s.had_rotation || spec_has_significant_rot s l) := by
  induction l generalizing s with
  | nil => simp [hid_run_events, spec_has_significant_rot]
  | cons e rest ih =>
    simp only [hid_run_events, spec_has_significant_rot_cons]
    rw [ih _ (fun h => hP (List.mem_cons_of_mem _ h))]
    have he : e ≠ CrownEvent.Press := fun h => hP (h ▸ List.mem_cons_self e rest)
    rw [step_had_rotation s e he, Bool.or_assoc]

/-- Claim C4: over any sequence of decoded events, a Pressed event, then any
press-free and release-free events, then ReleasedAfterPress yields exactly
one CrownClicked when no intervening rotation is significant, and none when
one is. -/
theorem click_suppression (s : ListenerState) (mid : List CrownEvent)
    (hP : CrownEvent.Press ∉ mid) (hR : CrownEvent.Release ∉ mid) :
    count_clicked (hid_run_events s
        (CrownEvent.Press :: (mid ++ [CrownEvent.Release]))).2
      = if spec_has_significant_rot { s with had_rotation := false } mid then 0 else 1 := by
  have h0 : hid_listener_step s CrownEvent.Press = ({ s with had_rotation := false }, []) := rfl
  simp only [hid_run_events, h0]
  rw [run_events_append]
  simp only [List.nil_append]
  rw [count_clicked_append]
  rw [run_no_click _ mid hR]
  have h1 : (hid_run_events { s with had_rotation := false } mid).1.had_rotation
      = spec_has_significant_rot { s with had_rotation := false } mid := by
    rw [run_had_rotation _ mid hP]
    simp
  cases hsig : spec_has_significant_rot { s with had_rotation := false } mid <;>
    rw [hsig] at h1 <;>
      simp [hid_run_events, hid_listener_step, h1, count_clicked]

/-- Witness for C4: Press, a significant rotation, Release — zero clicks. -/
theorem click_suppression_witness :
    CrownEvent.Press ∉ ([CrownEvent.Rotate 1 false 1] : List CrownEvent)
    ∧ CrownEvent.Release ∉ ([CrownEvent.Rotate 1 false 1] : List CrownEvent)
    ∧ count_clicked (hid_run_events hid_init
        (CrownEvent.Press :: ([CrownEvent.Rotate 1 false 1] ++ [CrownEvent.Release]))).2
      = if spec_has_significant_rot { hid_init with had_rotation := false }
            [CrownEvent.Rotate 1 false 1] then 0 else 1 :=
  ⟨by decide, by decide,
    click_suppression hid_init [CrownEvent.Rotate 1 false 1] (by decide) (by decide)⟩

/-! Helper lemmas for key-name parsing. -/

lemma split_char_ne_nil (sep : Char) (l : List Char) : split_char sep l ≠ [] := by
  cases l with
  | nil => simp [split_char]
  | cons c rest =>
    simp only [split_char]
    cases h : split_char sep rest with
    | nil => simp
    | cons p ps => by_cases hc : c = sep <;> simp [hc]

lemma split_char_no_sep (sep : Char) (p : List Char) (hp : sep ∉ p) :
    split_char sep p = [p] := by
  induction p with
  | nil => rfl
  | cons c cs ih =>
    have hc : c ≠ sep := fun h => hp (h ▸ List.mem_cons_self c cs)
    have hcs : sep ∉ cs := fun h => hp (List.mem_cons_of_mem _ h)
    simp only [split_char, ih hcs]
    simp [hc]

lemma split_char_append_sep (sep : Char) (p t : List Char) (hp : sep ∉ p) :
    split_char sep (p ++ sep :: t) = p :: split_char sep t := by
  induction p with
  | nil =>
    simp only [List.nil_append, split_char]
    cases h : split_char sep t with
    | nil => exact absurd h (split_char_ne_nil sep t)
    | cons q qs => simp
  | cons c cs ih =>
    have hc : c ≠ sep := fun h => hp (h ▸ List.mem_cons_self c cs)
    have hcs : sep ∉ cs := fun h => hp (List.mem_cons_of_mem _ h)
    show split_char sep (c :: (cs ++ sep :: t)) = (c :: cs) :: split_char sep t
    simp only [split_char]
    rw [ih hcs]
    simp [hc]

lemma split_char_intercalate (ps : List (List Char)) (hne : ps ≠ [])
    (hp : ∀ p ∈ ps, '+' ∉ p) :
    split_char '+' (intercalate_plus ps) = ps := by
  induction ps with
  | nil => exact absurd rfl hne
  | cons p rest ih =>
    cases rest with
    | nil =>
      simp only [intercalate_plus]
      exact split_char_no_sep '+' p (hp p (List.mem_cons_self p []))
    | cons q qs =>
      simp only [intercalate_plus]
      rw [split_char_append_sep '+' p _ (hp p (List.mem_cons_self p (q :: qs))),
        ih (by simp) (fun x hx => hp x (List.mem_cons_of_mem _ hx))]

lemma lower_intercalate (ps : List (List Char)) :
    lower (intercalate_plus ps) = intercalate_plus (ps.map lower) := by
  induction ps with
  | nil => rfl
  | cons p rest ih =>
    cases rest with
    | nil => rfl
    | cons q qs =>
      simp only [intercalate_plus, List.map_cons] at ih ⊢
      unfold lower at ih ⊢
      simp only [List.map_append, List.map_cons]
      rw [show Char.toLower '+' = '+' from by decide, ih]

lemma or_bits_append (l1 l2 : List (List Char)) :
    or_bits (l1 ++ l2) = or_bits l1 ||| or_bits l2 := by
  induction l1 with
  | nil => simp [or_bits]
  | cons m rest ih =>
    simp only [List.cons_append, or_bits, List.foldr_cons] at ih ⊢
    rw [ih, Nat.or_assoc]

lemma or_bits_reverse (l : List (List Char)) : or_bits l.reverse = or_bits l := by
  induction l with
  | nil => rfl
  | cons m rest ih =>
    rw [List.reverse_cons, or_bits_append, ih]
    simp only [or_bits, List.foldr_cons, List.foldr_nil]
    rw [Nat.or_zero, Nat.or_comm]

lemma foldl_modifier_bits (l : List (List Char)) (acc : Nat) :
    l.foldl (fun acc modifier =>
        if modifier = "shift".toList then acc ||| 1
        else if modifier = "alt".toList then acc ||| 8
        else if modifier = "ctrl".toList then acc ||| 4
        else acc) acc
      = acc ||| or_bits l := by
  induction l generalizing acc with
  | nil => simp [or_bits]
  | cons m rest ih =>
    simp only [List.foldl_cons, or_bits, List.foldr_cons]
    rw [ih]
    have hstep : (if m = "shift".toList then acc ||| 1
        else if m = "alt".toList then acc ||| 8
        else if m = "ctrl".toList then acc ||| 4
        else acc) = acc ||| modifier_bit m := by
      unfold modifier_bit
      split_ifs <;> simp
    rw [hstep, Nat.or_assoc]
    rfl

/-- Claim C5 counterexample: the key-name string "foo+a" contains the
unknown name "foo", yet parsing succeeds — an unknown modifier name is
silently ignored rather than failing at load. -/
theorem key_name_unknown_cex :
    table0 ("foo".toList) = none
    ∧ "foo".toList ∈ split_char '+' (lower ("foo+a".toList))
    ∧ deserialize_string_lowercase table0 ("foo+a".toList) = some (38, 0) :=
  ⟨by decide, by decide, by decide⟩

/-- Claim C5 (amended): for a '+'-joined string of names (lowercased before
matching), parsing looks the final name up in the keysym table and pairs its
code with the bitwise OR of the bits of the named modifiers (shift = 1,
ctrl = 4, alt = 8, any unrecognized modifier name contributing nothing);
it fails exactly when the final name is not in the table. -/
theorem key_name_parsing (table : List Char → Option Nat)
    (mods : List (List Char)) (key : List Char)
    (hplus : ∀ p ∈ mods ++ [key], '+' ∉ lower p) :
    deserialize_string_lowercase table (intercalate_plus (mods ++ [key]))
      = (table (lower key)).map
          (fun keycode => (keycode, or_bits (mods.map lower))) := by
  unfold deserialize_string_lowercase
  rw [lower_intercalate]
  have hmaps : (mods ++ [key]).map lower = mods.map lower ++ [lower key] := by simp
  rw [hmaps, split_char_intercalate _ (by simp) ?hp]
  case hp =>
    intro p hp
    rw [List.mem_append] at hp
    rcases hp with hp | hp
    · obtain ⟨q, hq, rfl⟩ := List.mem_map.mp hp
      exact hplus q (List.mem_append.mpr (Or.inl hq))
    · rw [List.mem_singleton] at hp
      subst hp
      exact hplus key (List.mem_append.mpr (Or.inr (List.mem_singleton.mpr rfl)))
  rw [List.reverse_append]
  simp only [List.reverse_cons, List.reverse_nil, List.nil_append, List.singleton_append]
  cases ht : table (lower key) with
  | none => simp [ht]
  | some keycode =>
    simp only [ht, Option.map_some']
    rw [foldl_modifier_bits, or_bits_reverse]
    simp

/-- Witness for C5: "SHIFT" + "A" parses case-insensitively to keysym 38
with modifier bit 1. -/
theorem key_name_parsing_witness :
    (∀ p ∈ ([("SHIFT".toList), ("A".toList)] : List (List Char)), '+' ∉ lower p)
    ∧ deserialize_string_lowercase table0 (intercalate_plus ([("SHIFT".toList)] ++ [("A".toList)]))
      = (table0 (lower ("A".toList))).map
          (fun keycode => (keycode, or_bits (([("SHIFT".toList)] : List (List Char)).map lower)))
    ∧ deserialize_string_lowercase table0 ("SHIFT+A".toList) = some (38, 1) :=
  ⟨by decide,
    key_name_parsing table0 [("SHIFT".toList)] ("A".toList) (by decide),
    by decide⟩

end CrownController
